import Mathlib

/-!
Verification of the QElectroTech per-file locking subsystem
(`sources/utils/qetfilelock.{h,cpp}`), a process-wide registry
(`QETFileLock`, static map `s_locks : QMap<QString, QLockFile*>`) built on
top of Qt's `QLockFile` sidecar lock-marker files.

The registry layer (`tryLock`, `unlock`, `isLocked`, `lockInfo`) is
translated directly from `qetfilelock.cpp`.  The marker layer (`QLockFile`:
atomic creation of `<path>.lock` recording pid/hostname/appname, stale
detection, read-only holder inspection) is library code that is not part of
this repository's sources; it is modelled from the specification (LockMarker,
spec sections 4.1 and 9): same-host staleness is decided by PID liveness,
cross-host staleness by marker age against a configured threshold, a stale
marker is deleted and acquisition retried exactly once.

The filesystem is an association list from marker path to marker content;
the registry table is an association list from canonical document path to
the held handle's marker path.  Canonicalization, host identity, PID
liveness, I/O failures and the current clock live in an `Env` record.
-/

namespace QETFileLockModel

/-- Holder metadata recorded inside a lock-marker file:
the pid, hostname and application name written by `QLockFile`. -/
structure LockInfo where
  pid : Nat
  hostname : String
  appname : String
deriving DecidableEq

/-- One on-disk lock-marker file: its holder metadata and its
modification timestamp (used by the cross-host age heuristic). -/
structure Marker where
  info : LockInfo
  mtime : Nat
deriving DecidableEq

/-- The visible filesystem state: marker files keyed by their path. -/
abbrev Disk := List (String × Marker)

/-- Remove the marker file at path `p` (no-op when absent). -/
def diskRemove (d : Disk) (p : String) : Disk :=
  d.filter fun x => !(x.1 == p)

/-- Create (or overwrite) the marker file at path `p` with content `m`. -/
def diskSet (d : Disk) (p : String) (m : Marker) : Disk :=
  (p, m) :: diskRemove d p

/-- Ambient facts a lock operation depends on: the platform's path
canonicalization (`QFileInfo::canonicalFilePath`, returning `""` on
failure, e.g. when the file does not exist), the local host name, which
PIDs are alive on the local host, which marker paths suffer I/O failures,
the holder metadata this process writes into markers it creates, the
configured stale-lock age threshold, and the current time. -/
structure Env where
  canon : String → String
  localHost : String
  isLivePid : Nat → Bool
  ioError : String → Bool
  self : LockInfo
  staleLockTime : Nat
  now : Nat

/-- Modelled from the spec: `QLockFile`'s staleness decision for an
existing marker (spec section 9: decide staleness via local PID-liveness
check when the recorded hostname matches the local machine, else via the
age-based heuristic, marker age beyond the configured threshold). -/
def isApparentlyStale (env : Env) (m : Marker) : Bool :=
  if m.info.hostname = env.localHost then
    !(env.isLivePid m.info.pid)
  else
    decide (env.staleLockTime < env.now - m.mtime)

/-- Modelled from the spec: `QLockFile::tryLock` /
`LockMarker::create_and_acquire` (spec section 4.1), which is Qt library
code not present in this repository's sources.  Atomic create-if-absent of
the marker at `lockPath`, writing this process's holder metadata; on
conflict, a marker found stale is deleted and acquisition retried exactly
once (the retry finds no marker and creates); a live holder or an I/O
failure yields `false` with the disk unchanged. -/
def markerTryLock (env : Env) (d : Disk) (lockPath : String) : Bool × Disk :=
  if env.ioError lockPath then
    (false, d)
  else
    match List.lookup lockPath d with
    | none => (true, diskSet d lockPath ⟨env.self, env.now⟩)
    | some m =>
        if isApparentlyStale env m then
          (true, diskSet (diskRemove d lockPath) lockPath ⟨env.self, env.now⟩)
        else
          (false, d)

/-- Modelled from the spec: `QLockFile::getLockInfo` /
`LockMarker::read_holder_info` (spec section 4.1), read-only inspection of
the marker at `lockPath`: parses the recorded (pid, hostname, appname)
without acquiring the lock, failing when no marker file exists. -/
def getLockInfo (d : Disk) (lockPath : String) : Option LockInfo :=
  (List.lookup lockPath d).map Marker.info

/-- The whole observable state: this process's registry table
`s_locks` (canonical document path, held handle's marker path) and
the disk. -/
structure World where
  s_locks : List (String × String)
  disk : Disk
deriving DecidableEq

/-- `QETFileLock::tryLock` (qetfilelock.cpp lines 33-54): canonicalize,
fail on empty canonicalization; succeed at once when the canonical path is
already a key of `s_locks`; otherwise attempt the marker-level lock on
`canonical + ".lock"`, inserting the handle on success.  The source
configures the library's stale-lock time via `setStaleLockTime(0)`; the
spec leaves the effective threshold unspecified and configured (spec
section 9 open question), so the embedding keeps it in `Env`. -/
def tryLock (env : Env) (w : World) (filepath : String) : Bool × World :=
  let canonical := env.canon filepath
  if canonical = "" then
    (false, w)
  else if (List.lookup canonical w.s_locks).isSome then
    (true, w)
  else
    let lock_path := canonical ++ ".lock"
    match markerTryLock env w.disk lock_path with
    | (true, d) => (true, ⟨(canonical, lock_path) :: w.s_locks, d⟩)
    | (false, d) => (false, ⟨w.s_locks, d⟩)

/-- `QETFileLock::unlock` (qetfilelock.cpp lines 61-72): canonicalize,
no-op on empty canonicalization or when the canonical path is not in the
table; otherwise take the entry out of the table and release the handle,
which removes its marker file from disk. -/
def unlock (env : Env) (w : World) (filepath : String) : World :=
  let canonical := env.canon filepath
  if canonical = "" then
    w
  else
    match List.lookup canonical w.s_locks with
    | none => w
    | some lock_path =>
        ⟨w.s_locks.filter fun x => !(x.1 == canonical), diskRemove w.disk lock_path⟩

/-- `QETFileLock::isLocked` (qetfilelock.cpp lines 79-83): canonicalize
(with no emptiness check) and test table membership; answers whether this
process holds the lock. -/
def isLocked (env : Env) (w : World) (filepath : String) : Bool :=
  (List.lookup (env.canon filepath) w.s_locks).isSome

/-- `QETFileLock::lockInfo` (qetfilelock.cpp lines 94-106): canonicalize,
fail on empty canonicalization; otherwise read the holder metadata out of
the marker at `canonical + ".lock"` via the read-only
`QLockFile::getLockInfo`.  The state is threaded unchanged: the operation
performs no write (the inspecting `QLockFile` never acquired, so its
destruction removes nothing). -/
def lockInfo (env : Env) (w : World) (filepath : String) :
    Option LockInfo × World :=
  let canonical := env.canon filepath
  if canonical = "" then
    (none, w)
  else
    (getLockInfo w.disk (canonical ++ ".lock"), w)

section Helpers

variable {β : Type}

theorem lookup_cons_self (c : String) (v : β) (l : List (String × β)) :
    List.lookup c ((c, v) :: l) = some v := by
  simp [List.lookup]

theorem lookup_cons_ne (c k : String) (v : β) (l : List (String × β))
    (h : c ≠ k) : List.lookup c ((k, v) :: l) = List.lookup c l := by
  simp [List.lookup, beq_false_of_ne h]

/-- Looking up a key in a list from which every pair with that key was
filtered out yields nothing. -/
theorem lookup_filterKey_self (c : String) (l : List (String × β)) :
    List.lookup c (l.filter fun x => !(x.1 == c)) = none := by
  induction l with
  | nil => rfl
  | cons a t ih =>
      obtain ⟨a1, a2⟩ := a
      by_cases h : a1 = c
      · rw [List.filter_cons_of_neg (by simp [h])]
        exact ih
      · rw [List.filter_cons_of_pos (by simp [h]),
          lookup_cons_ne c a1 a2 _ fun hc => h hc.symm]
        exact ih

/-- Filtering out pairs with a different key does not change a lookup. -/
theorem lookup_filterKey_ne (c k : String) (l : List (String × β))
    (h : c ≠ k) :
    List.lookup c (l.filter fun x => !(x.1 == k)) = List.lookup c l := by
  induction l with
  | nil => rfl
  | cons a t ih =>
      obtain ⟨a1, a2⟩ := a
      by_cases ha : a1 = k
      · rw [List.filter_cons_of_neg (by simp [ha]),
          lookup_cons_ne c a1 a2 t fun hc => h (hc.trans ha)]
        exact ih
      · rw [List.filter_cons_of_pos (by simp [ha])]
        by_cases hc : c = a1
        · rw [hc, lookup_cons_self, lookup_cons_self]
        · rw [lookup_cons_ne c a1 a2 _ hc, lookup_cons_ne c a1 a2 t hc]
          exact ih

/-- A key that is absent has zero matching pairs. -/
theorem countP_eq_zero_of_lookup_none (c : String) (l : List (String × β))
    (h : List.lookup c l = none) :
    l.countP (fun x => x.1 == c) = 0 := by
  induction l with
  | nil => rfl
  | cons a t ih =>
      by_cases ha : c = a.1
      · rw [show a = (a.1, a.2) from rfl, ← ha, lookup_cons_self] at h
        exact absurd h (by simp)
      · rw [show a = (a.1, a.2) from rfl, lookup_cons_ne c a.1 a.2 t ha] at h
        have hb : (a.1 == c) = false := beq_false_of_ne fun hk => ha hk.symm
        simp [List.countP_cons, hb, ih h]

/-- After filtering a key out, zero pairs match it. -/
theorem countP_filterKey_self (c : String) (l : List (String × β)) :
    (l.filter fun x => !(x.1 == c)).countP (fun x => x.1 == c) = 0 := by
  rw [List.countP_eq_zero]
  intro a ha
  have := (List.mem_filter.mp ha).2
  simpa using this

/-- A `diskSet` leaves exactly one marker file at the written path. -/
theorem countP_diskSet (d : Disk) (p : String) (m : Marker) :
    (diskSet d p m).countP (fun x => x.1 == p) = 1 := by
  simp [diskSet, diskRemove, List.countP_cons, countP_filterKey_self]

theorem lookup_diskSet_self (d : Disk) (p : String) (m : Marker) :
    List.lookup p (diskSet d p m) = some m :=
  lookup_cons_self p m _

theorem lookup_diskRemove_self (d : Disk) (p : String) :
    List.lookup p (diskRemove d p) = none :=
  lookup_filterKey_self p d

/-- Removing a marker path twice is the same as removing it once, so a
`diskSet` after a stale-marker deletion equals a plain `diskSet`. -/
theorem diskSet_diskRemove (d : Disk) (p : String) (m : Marker) :
    diskSet (diskRemove d p) p m = diskSet d p m := by
  simp [diskSet, diskRemove, List.filter_filter]

end Helpers

/-- Anatomy of a fresh successful acquisition: when the canonical path was
not yet in the table and `tryLock` returned `true`, canonicalization
succeeded, the handle was prepended to the table, and the disk now carries
a marker at `canonical + ".lock"` recording this process's own metadata
and the current time. -/
theorem tryLock_fresh_success (env : Env) (w : World) (p : String)
    (hfresh : List.lookup (env.canon p) w.s_locks = none)
    (hsucc : (tryLock env w p).1 = true) :
    env.canon p ≠ "" ∧
    (tryLock env w p).2.s_locks
      = (env.canon p, env.canon p ++ ".lock") :: w.s_locks ∧
    (tryLock env w p).2.disk
      = diskSet w.disk (env.canon p ++ ".lock") ⟨env.self, env.now⟩ := by
  by_cases hc : env.canon p = ""
  · rw [tryLock] at hsucc
    simp [hc] at hsucc
  · refine ⟨hc, ?_⟩
    rw [tryLock] at hsucc ⊢
    simp only [hc, if_false, hfresh, Option.isSome_none, Bool.false_eq_true,
      if_false] at hsucc ⊢
    rw [markerTryLock] at hsucc ⊢
    by_cases hio : env.ioError (env.canon p ++ ".lock") = true
    · simp [hio] at hsucc
    · simp only [Bool.not_eq_true] at hio
      simp only [hio, Bool.false_eq_true, if_false] at hsucc ⊢
      cases hd : List.lookup (env.canon p ++ ".lock") w.disk with
      | none => simp [hd]
      | some m =>
          simp only [hd] at hsucc ⊢
          by_cases hst : isApparentlyStale env m = true
          · simp [hst, diskSet_diskRemove]
          · simp [hst] at hsucc

/-! Concrete fixtures used by the closed witness and counterexample
theorems below: one host `hostA` with two live processes (pids 101 and
202), a remote host `hostB`, and a canonicalization that resolves only
`/a.qet` (to `/a`). -/

def selfInfo : LockInfo := ⟨101, "hostA", "qet"⟩

def otherInfo : LockInfo := ⟨202, "hostA", "qet"⟩

def farInfo : LockInfo := ⟨303, "hostB", "qet"⟩

def canon0 : String → String := fun s => if s = "/a.qet" then "/a" else ""

def env0 : Env :=
  ⟨canon0, "hostA", fun n => n == 101 || n == 202, fun _ => false,
    selfInfo, 30000, 50000⟩

def env1 : Env :=
  ⟨canon0, "hostA", fun n => n == 101 || n == 202, fun _ => false,
    otherInfo, 30000, 50000⟩

def w0 : World := ⟨[], []⟩

def wOther : World := ⟨[], [("/a.lock", ⟨otherInfo, 10⟩)]⟩

def wStale : World := ⟨[], [("/a.lock", ⟨⟨999, "hostA", "qet"⟩, 10⟩)]⟩

def wFarOld : World := ⟨[], [("/a.lock", ⟨farInfo, 10⟩)]⟩

/-- C1: mutual exclusion.  When one registry instance (environment `e1`,
same host as the observer: the written hostname is the observer's local
host and the writer's pid is live there, as holds for two instances in one
process) has freshly acquired `try_lock(p) = true` and not yet unlocked,
a `try_lock` on the same canonical path issued from any other registry
instance (its own table `t2` not holding the path) against the resulting
disk returns `false`. -/
theorem tryLock_mutual_exclusion (e1 e2 : Env) (w : World)
    (t2 : List (String × String)) (p q : String)
    (hfresh : List.lookup (e1.canon p) w.s_locks = none)
    (h1 : (tryLock e1 w p).1 = true)
    (hcanon : e2.canon q = e1.canon p)
    (ht2 : List.lookup (e1.canon p) t2 = none)
    (hhost : e1.self.hostname = e2.localHost)
    (hlive : e2.isLivePid e1.self.pid = true) :
    (tryLock e2 ⟨t2, (tryLock e1 w p).2.disk⟩ q).1 = false := by
  obtain ⟨hc, _, hdisk⟩ := tryLock_fresh_success e1 w p hfresh h1
  rw [tryLock]
  simp only [hcanon, hc, if_false, ht2, Option.isSome_none,
    Bool.false_eq_true, if_false]
  rw [markerTryLock]
  by_cases hio : e2.ioError (e1.canon p ++ ".lock") = true
  · simp [hio]
  · simp only [Bool.not_eq_true] at hio
    simp only [hio, Bool.false_eq_true, if_false, hdisk, lookup_diskSet_self]
    have hstale : isApparentlyStale e2 ⟨e1.self, e1.now⟩ = false := by
      rw [isApparentlyStale]
      simp [hhost, hlive]
    simp [hstale]

/-- C1 witness: two instances in one process on `hostA`; the first
acquires `/a.qet` from an empty world, the second observes `false`. -/
theorem tryLock_mutual_exclusion_witness :
    (tryLock env1 ⟨[], (tryLock env0 w0 "/a.qet").2.disk⟩ "/a.qet").1
      = false :=
  tryLock_mutual_exclusion env0 env1 w0 [] "/a.qet" "/a.qet"
    (by decide) (by decide) (by decide) (by decide) (by decide) (by decide)

/-- C2 counterexample: with a live foreign holder's marker on disk
(`wOther`, pid 202 alive on the same host), canonicalization of `/a.qet`
succeeds yet the second of two `try_lock` calls by this process returns
`false`, not `true`: the claim's only hypothesis (canonicalization
succeeds) does not suffice. -/
theorem tryLock_twice_cex :
    env0.canon "/a.qet" ≠ "" ∧
    (tryLock env0 (tryLock env0 wOther "/a.qet").2 "/a.qet").1 = false := by
  decide

/-- C2 (amended): if the first `try_lock(p)` returns `true` from a state
where this process does not yet hold `p`, then a second `try_lock(p)`
before any unlock returns `true` and changes nothing (table and disk
unchanged), the canonical key appears exactly once in the table, and
exactly one marker file is on disk. -/
theorem tryLock_idempotent (e : Env) (w : World) (p : String)
    (hfresh : List.lookup (e.canon p) w.s_locks = none)
    (hsucc : (tryLock e w p).1 = true) :
    (tryLock e (tryLock e w p).2 p).1 = true ∧
    (tryLock e (tryLock e w p).2 p).2 = (tryLock e w p).2 ∧
    (tryLock e w p).2.s_locks.countP (fun x => x.1 == e.canon p) = 1 ∧
    (tryLock e w p).2.disk.countP (fun x => x.1 == e.canon p ++ ".lock")
      = 1 := by
  obtain ⟨hc, htab, hdisk⟩ := tryLock_fresh_success e w p hfresh hsucc
  have hmem : List.lookup (e.canon p) (tryLock e w p).2.s_locks
      = some (e.canon p ++ ".lock") := by
    rw [htab, lookup_cons_self]
  constructor
  · rw [tryLock]
    simp [hc, hmem]
  constructor
  · rw [tryLock]
    simp [hc, hmem]
  constructor
  · rw [htab]
    simp [List.countP_cons, countP_eq_zero_of_lookup_none _ _ hfresh]
  · rw [hdisk]
    exact countP_diskSet w.disk _ _

/-- C2 witness: a fresh acquisition of `/a.qet` from the empty world,
then idempotent re-entry. -/
theorem tryLock_idempotent_witness :
    (tryLock env0 (tryLock env0 w0 "/a.qet").2 "/a.qet").1 = true ∧
    (tryLock env0 (tryLock env0 w0 "/a.qet").2 "/a.qet").2
      = (tryLock env0 w0 "/a.qet").2 ∧
    (tryLock env0 w0 "/a.qet").2.s_locks.countP
      (fun x => x.1 == env0.canon "/a.qet") = 1 ∧
    (tryLock env0 w0 "/a.qet").2.disk.countP
      (fun x => x.1 == env0.canon "/a.qet" ++ ".lock") = 1 :=
  tryLock_idempotent env0 w0 "/a.qet" (by decide) (by decide)

/-- C3: clean release.  After a fresh successful `try_lock(p)` followed by
`unlock(p)`, `is_locked_by_self(p)` is `false` and the marker file
`canonical(p) ++ ".lock"` no longer exists on disk. -/
theorem unlock_clean_release (e : Env) (w : World) (p : String)
    (hfresh : List.lookup (e.canon p) w.s_locks = none)
    (hsucc : (tryLock e w p).1 = true) :
    isLocked e (unlock e (tryLock e w p).2 p) p = false ∧
    List.lookup (e.canon p ++ ".lock")
      (unlock e (tryLock e w p).2 p).disk = none := by
  obtain ⟨hc, htab, hdisk⟩ := tryLock_fresh_success e w p hfresh hsucc
  have hmem : List.lookup (e.canon p) (tryLock e w p).2.s_locks
      = some (e.canon p ++ ".lock") := by
    rw [htab, lookup_cons_self]
  rw [unlock]
  simp only [hc, if_false, hmem]
  constructor
  · rw [isLocked]
    simp [lookup_filterKey_self]
  · rw [hdisk]
    exact lookup_diskRemove_self _ _

/-- C3 witness: acquire `/a.qet` from the empty world, release it, and
observe both facts. -/
theorem unlock_clean_release_witness :
    isLocked env0 (unlock env0 (tryLock env0 w0 "/a.qet").2 "/a.qet")
      "/a.qet" = false ∧
    List.lookup (env0.canon "/a.qet" ++ ".lock")
      (unlock env0 (tryLock env0 w0 "/a.qet").2 "/a.qet").disk = none :=
  unlock_clean_release env0 w0 "/a.qet" (by decide) (by decide)

/-- C4: stale recovery.  Given a marker on disk whose recorded hostname is
the local host and whose recorded pid is not live, a `try_lock` on that
path (not already held by this process, no I/O failure) succeeds: the
stale marker is replaced by one recording the caller's own holder
metadata, and the handle enters the table. -/
theorem tryLock_stale_recovery (e : Env) (w : World) (p : String)
    (m : Marker)
    (hfresh : List.lookup (e.canon p) w.s_locks = none)
    (hc : e.canon p ≠ "")
    (hio : e.ioError (e.canon p ++ ".lock") = false)
    (hdisk : List.lookup (e.canon p ++ ".lock") w.disk = some m)
    (hhost : m.info.hostname = e.localHost)
    (hdead : e.isLivePid m.info.pid = false) :
    (tryLock e w p).1 = true ∧
    List.lookup (e.canon p ++ ".lock") (tryLock e w p).2.disk
      = some ⟨e.self, e.now⟩ ∧
    List.lookup (e.canon p) (tryLock e w p).2.s_locks
      = some (e.canon p ++ ".lock") := by
  have hstale : isApparentlyStale e m = true := by
    rw [isApparentlyStale]
    simp [hhost, hdead]
  rw [tryLock]
  simp only [hc, if_false, hfresh, Option.isSome_none, Bool.false_eq_true,
    if_false]
  rw [markerTryLock]
  simp [hio, hdisk, hstale, lookup_diskSet_self, lookup_cons_self]

/-- C4 witness: `wStale` carries a marker recorded by dead pid 999 on
`hostA`; pid 101 recovers it. -/
theorem tryLock_stale_recovery_witness :
    (tryLock env0 wStale "/a.qet").1 = true ∧
    List.lookup (env0.canon "/a.qet" ++ ".lock")
      (tryLock env0 wStale "/a.qet").2.disk
      = some ⟨env0.self, env0.now⟩ ∧
    List.lookup (env0.canon "/a.qet")
      (tryLock env0 wStale "/a.qet").2.s_locks
      = some (env0.canon "/a.qet" ++ ".lock") :=
  tryLock_stale_recovery env0 wStale "/a.qet" ⟨⟨999, "hostA", "qet"⟩, 10⟩
    (by decide) (by decide) (by decide) (by decide) (by decide) (by decide)

/-- C5: cross-host staleness is age-based.  For a marker whose recorded
hostname differs from the local machine, under a configured positive age
threshold: a marker older than the threshold is treated as stale, so
`try_lock` succeeds and replaces it with the caller's marker; a marker
not older than the threshold makes `try_lock` fail as already locked,
leaving the state unchanged. -/
theorem tryLock_cross_host_age (e : Env) (w : World) (p : String)
    (m : Marker)
    (hfresh : List.lookup (e.canon p) w.s_locks = none)
    (hc : e.canon p ≠ "")
    (hio : e.ioError (e.canon p ++ ".lock") = false)
    (hdisk : List.lookup (e.canon p ++ ".lock") w.disk = some m)
    (hcross : m.info.hostname ≠ e.localHost)
    (hpos : 0 < e.staleLockTime) :
    (e.staleLockTime < e.now - m.mtime →
      (tryLock e w p).1 = true ∧
      List.lookup (e.canon p ++ ".lock") (tryLock e w p).2.disk
        = some ⟨e.self, e.now⟩) ∧
    (e.now - m.mtime ≤ e.staleLockTime →
      (tryLock e w p).1 = false ∧ (tryLock e w p).2 = w) := by
  rw [tryLock]
  simp only [hc, if_false, hfresh, Option.isSome_none, Bool.false_eq_true,
    if_false]
  rw [markerTryLock]
  simp only [hio, Bool.false_eq_true, if_false, hdisk]
  constructor
  · intro hold
    have hstale : isApparentlyStale e m = true := by
      rw [isApparentlyStale]
      simp [hcross, hold]
    simp [hstale, lookup_diskSet_self]
  · intro hyoung
    have hstale : isApparentlyStale e m = false := by
      rw [isApparentlyStale]
      simp [hcross, Nat.not_lt.mpr hyoung]
    simp [hstale]

/-- C5 witness: `wFarOld` carries a marker from `hostB` of age 49990
against a threshold of 30000; the age comparisons on both sides of the
conclusion are exercised at the theorem's concrete instance. -/
theorem tryLock_cross_host_age_witness :
    ((env0.staleLockTime < env0.now - 10 →
      (tryLock env0 wFarOld "/a.qet").1 = true ∧
      List.lookup (env0.canon "/a.qet" ++ ".lock")
        (tryLock env0 wFarOld "/a.qet").2.disk
        = some ⟨env0.self, env0.now⟩) ∧
    (env0.now - 10 ≤ env0.staleLockTime →
      (tryLock env0 wFarOld "/a.qet").1 = false ∧
      (tryLock env0 wFarOld "/a.qet").2 = wFarOld)) :=
  tryLock_cross_host_age env0 wFarOld "/a.qet" ⟨farInfo, 10⟩
    (by decide) (by decide) (by decide) (by decide) (by decide) (by decide)

/-- C6: failure changes nothing in the registry table.  Whenever
`try_lock` returns `false` (empty canonicalization, live foreign holder,
or I/O failure), the table `s_locks` after the call is exactly the table
before it.  The embedding is a total function, mirroring that the source
reports failure as a return value and propagates no error. -/
theorem tryLock_failure_table_unchanged (e : Env) (w : World) (p : String)
    (hfail : (tryLock e w p).1 = false) :
    (tryLock e w p).2.s_locks = w.s_locks := by
  rw [tryLock] at hfail ⊢
  by_cases hc : e.canon p = ""
  · simp [hc]
  · simp only [hc, if_false] at hfail ⊢
    by_cases hm : (List.lookup (e.canon p) w.s_locks).isSome = true
    · simp [hm] at hfail
    · simp only [hm, Bool.false_eq_true, if_false] at hfail ⊢
      cases hr : markerTryLock e w.disk (e.canon p ++ ".lock") with
      | mk b d =>
          cases b
          · simp [hr]
          · simp [hr] at hfail

/-- C6 witness: a `try_lock` that fails against the live foreign holder
of `wOther` leaves the (empty) table untouched. -/
theorem tryLock_failure_table_unchanged_witness :
    (tryLock env0 wOther "/a.qet").2.s_locks = wOther.s_locks :=
  tryLock_failure_table_unchanged env0 wOther "/a.qet" (by decide)

/-- C7: `lock_info` is a pure read.  On a path this process does not
hold, `lock_info` returns the state (table and disk, hence the marker
file at `canonical(p) ++ ".lock"`) exactly unchanged, and a subsequent
`try_lock` by any process (any environment `e2`, any path `q`) has
exactly the outcome it would have had without the query. -/
theorem lockInfo_pure_read (e e2 : Env) (w : World) (p q : String)
    (hnotheld : List.lookup (e.canon p) w.s_locks = none) :
    (lockInfo e w p).2 = w ∧
    tryLock e2 (lockInfo e w p).2 q = tryLock e2 w q := by
  have h2 : (lockInfo e w p).2 = w := by
    rw [lockInfo]
    by_cases hc : e.canon p = "" <;> simp [hc]
  exact ⟨h2, by rw [h2]⟩

/-- C7 witness: querying `/a.qet` in `wOther` (held by pid 202, not by
this process) changes nothing for a subsequent `try_lock`. -/
theorem lockInfo_pure_read_witness :
    (lockInfo env0 wOther "/a.qet").2 = wOther ∧
    tryLock env0 (lockInfo env0 wOther "/a.qet").2 "/a.qet"
      = tryLock env0 wOther "/a.qet" :=
  lockInfo_pure_read env0 env0 wOther "/a.qet" "/a.qet" (by decide)

/-- C8: round trip of holder metadata.  After this process's fresh
successful `try_lock(p)` and before any `unlock(p)`, `lock_info(p)`
succeeds and returns exactly the (pid, hostname, app_id) triple `e.self`
written into the marker at acquisition time. -/
theorem lockInfo_round_trip (e : Env) (w : World) (p : String)
    (hfresh : List.lookup (e.canon p) w.s_locks = none)
    (hsucc : (tryLock e w p).1 = true) :
    (lockInfo e (tryLock e w p).2 p).1 = some e.self := by
  obtain ⟨hc, _, hdisk⟩ := tryLock_fresh_success e w p hfresh hsucc
  rw [lockInfo]
  simp [hc, getLockInfo, hdisk, lookup_diskSet_self]

/-- C8 witness: pid 101 on `hostA` acquires `/a.qet` and reads its own
triple back. -/
theorem lockInfo_round_trip_witness :
    (lockInfo env0 (tryLock env0 w0 "/a.qet").2 "/a.qet").1
      = some env0.self :=
  lockInfo_round_trip env0 w0 "/a.qet" (by decide) (by decide)

/-- C9: the table never acquires the empty string as a key.  Starting
from a table without the empty key, `tryLock` (the only inserting
operation, which inserts only after rejecting an empty canonicalization),
`unlock` and `lockInfo` all preserve the absence; consequently, on a path
whose canonicalization fails, `is_locked_by_self` returns `false` even
though `isLocked` itself performs no emptiness check. -/
theorem s_locks_no_empty_key (e : Env) (w : World) (p q : String)
    (hinv : List.lookup "" w.s_locks = none) :
    List.lookup "" (tryLock e w p).2.s_locks = none ∧
    List.lookup "" (unlock e w p).s_locks = none ∧
    List.lookup "" (lockInfo e w p).2.s_locks = none ∧
    (e.canon q = "" → isLocked e w q = false) := by
  refine ⟨?_, ?_, ?_, ?_⟩
  · rw [tryLock]
    by_cases hc : e.canon p = ""
    · simp [hc, hinv]
    · simp only [hc, if_false]
      by_cases hm : (List.lookup (e.canon p) w.s_locks).isSome = true
      · simp [hm, hinv]
      · simp only [hm, Bool.false_eq_true, if_false]
        cases hr : markerTryLock e w.disk (e.canon p ++ ".lock") with
        | mk b d =>
            cases b
            · simp [hinv]
            · simp [lookup_cons_ne "" (e.canon p) _ _ fun h => hc h.symm,
                hinv]
  · rw [unlock]
    by_cases hc : e.canon p = ""
    · simp [hc, hinv]
    · simp only [hc, if_false]
      cases hm : List.lookup (e.canon p) w.s_locks with
      | none => simpa using hinv
      | some lock_path =>
          simpa [lookup_filterKey_ne "" (e.canon p) w.s_locks
            fun h => hc h.symm] using hinv
  · rw [lockInfo]
    by_cases hc : e.canon p = "" <;> simp [hc, hinv]
  · intro hq
    rw [isLocked, hq, hinv]
    rfl

/-- C9 witness: with the empty table, all four conjuncts at the failing
path `/b.qet` (whose canonicalization is empty). -/
theorem s_locks_no_empty_key_witness :
    List.lookup "" (tryLock env0 w0 "/a.qet").2.s_locks = none ∧
    List.lookup "" (unlock env0 w0 "/a.qet").s_locks = none ∧
    List.lookup "" (lockInfo env0 w0 "/a.qet").2.s_locks = none ∧
    (env0.canon "/b.qet" = "" → isLocked env0 w0 "/b.qet" = false) :=
  s_locks_no_empty_key env0 w0 "/a.qet" "/b.qet" (by decide)

/-- C10: `lock_info` on a path whose canonicalization fails returns
failure (`none`, the out-parameters unwritten) with the state returned
exactly unchanged; the early return happens before any marker path is
formed, so the result does not depend on the disk at all. -/
theorem lockInfo_canon_failure (e : Env) (w : World) (p : String)
    (hc : e.canon p = "") :
    lockInfo e w p = (none, w) := by
  rw [lockInfo]
  simp [hc]

/-- C10 witness: `/b.qet` does not canonicalize under `canon0`. -/
theorem lockInfo_canon_failure_witness :
    env0.canon "/b.qet" = "" ∧ lockInfo env0 wOther "/b.qet"
      = (none, wOther) :=
  ⟨by decide, lockInfo_canon_failure env0 wOther "/b.qet" (by decide)⟩

end QETFileLockModel

